import Mathlib

set_option maxRecDepth 8192
set_option linter.unnecessarySeqFocus false

/-!
Verification of the `data_visualization_common` repository.

The repository is a Streamlit dashboard library.  This file gives a shallow
embedding of the parts of the code the specification talks about:

* `src/streaming_chart/__init__.py` — the `streaming_chart` function that
  assembles a single HTML document out of four frontend asset files and an
  injected configuration script, and delivers it to the render surface with a
  given height.  The filesystem is modelled as a partial map from file names
  (relative to the `frontend` directory next to the module) to file contents;
  a read of an absent file is a raised exception, modelled as `none`.
* `src/table.py` — the pagination arithmetic of `TableManager.render_table`.
* `src/exporter.py` — the success/failure contract of
  `Exporter.export_to_markdown`.
* The streaming engine (frame codec and candle aggregator) lives in the
  frontend JavaScript files (`main.js`, `msgpack.js`), which are not present
  in the repository; those components are modelled from the specification,
  as marked on each definition.
-/

/-- A call to `streamlit.components.v1.html(full_html, height=height,
scrolling=False)` — the document and presentation options delivered to the
render surface by `streaming_chart`. -/
structure RenderCall where
  html : String
  height : Int
  scrolling : Bool
deriving Repr, DecidableEq

/-- The ES-module import line removed from `main.js` before inlining
(`src/streaming_chart/__init__.py` lines 47–49). -/
def importLine : String := "import \x7b decodeMessage, encodeMessage \x7d from \x27./msgpack.js\x27;"

/-- The ES-module export line removed from `msgpack.js` before inlining
(`src/streaming_chart/__init__.py` lines 51–53). -/
def exportLine : String := "export \x7b encodeMessage, decodeMessage \x7d;"

/-- Literal text of the injected config script before the websocket URL. -/
def cfgPart1 : String := "\n    <script>\n        window.STREAMING_CHART_CONFIG = \x7b\n            websocketUrl: \""

/-- Literal text of the injected config script between the URL and the topic. -/
def cfgPart2 : String := "\",\n            topic: \""

/-- Literal text of the injected config script between the topic and the
candle interval. -/
def cfgPart3 : String := "\",\n            candleInterval: "

/-- Literal text of the injected config script after the candle interval. -/
def cfgPart4 : String := "\n        \x7d;\n    </script>\n    "

/-- The `config_script` f-string of `streaming_chart`
(`src/streaming_chart/__init__.py` lines 56–64): the three connection
parameters are interpolated verbatim into a `window.STREAMING_CHART_CONFIG`
object literal. -/
def configScript (websocket_url topic : String) (candle_interval : Int) : String :=
  cfgPart1 ++ websocket_url ++ cfgPart2 ++ topic ++ cfgPart3 ++ toString candle_interval ++ cfgPart4

/-- Literal HTML before the inlined stylesheet. -/
def htmlPart1 : String := "\n    <!DOCTYPE html>\n    <html>\n    <head>\n        <meta charset=\"UTF-8\">\n        <meta name=\"viewport\" content=\"width=device-width, initial-scale=1.0\">\n        <script\n            src=\"https://unpkg.com/lightweight-charts@4.1.0/dist/lightweight-charts.standalone.production.js\">\n        </script>\n        <style>\n        "

/-- Literal HTML between the stylesheet and the body content. -/
def htmlPart2 : String := "\n        </style>\n    </head>\n    <body>\n        "

/-- Literal HTML between the body content and the config script. -/
def htmlPart3 : String := "\n        "

/-- Literal HTML between the config script and the inlined msgpack script. -/
def htmlPart4 : String := "\n        <script>\n        // Msgpack decoder/encoder\n        "

/-- Literal HTML between the msgpack script and the inlined main script. -/
def htmlPart5 : String := "\n        </script>\n        <script>\n        // Main chart script\n        "

/-- Literal HTML closing the document. -/
def htmlPart6 : String := "\n        </script>\n    </body>\n    </html>\n    "

/-- The `full_html` f-string of `streaming_chart`
(`src/streaming_chart/__init__.py` lines 67–93). -/
def fullHtml (css_content html_content config_script msgpack_content js_content : String) : String :=
  htmlPart1 ++ css_content ++ htmlPart2 ++ html_content ++ htmlPart3 ++ config_script ++
    htmlPart4 ++ msgpack_content ++ htmlPart5 ++ js_content ++ htmlPart6

/-- `streaming_chart` from `src/streaming_chart/__init__.py`.  `fs` maps a
file name under the `frontend` directory next to the module to its contents
(`none` when the file is absent, in which case Python's `open` raises and the
call returns nothing: modelled by the `none` result).  On success the four
files are inlined, the module import/export lines are stripped (Python's
`str.replace` replaces every occurrence, as does `String.replace`), the
configuration script is injected, and the document is delivered to the render
surface with the given `height` and `scrolling=False`. -/
def streaming_chart (fs : String → Option String) (websocket_url : String)
    (topic : String) (height : Int) (candle_interval : Int) : Option RenderCall :=
  match fs "index.html", fs "style.css", fs "main.js", fs "msgpack.js" with
  | some html_content, some css_content, some js_content, some msgpack_content =>
    let js_inlined := js_content.replace importLine ""
    let msgpack_inlined := msgpack_content.replace exportLine ""
    let config_script := configScript websocket_url topic candle_interval
    some { html := fullHtml css_content html_content config_script msgpack_inlined js_inlined,
           height := height, scrolling := false }
  | _, _, _, _ => none

/-- The `frontend` directory next to `src/streaming_chart/__init__.py` in
this repository contains no files at all (the directory itself is absent from
the source tree), so every file lookup under it fails. -/
def repoFrontendFs : String → Option String := fun _ => none

/-- A filesystem in which all four frontend asset files exist, used to
exercise the success path of `streaming_chart` on concrete inputs. -/
def fsAll : String → Option String := fun _ => some "x"

/-- C1: the HTML document delivered to the render surface contains the
`window.STREAMING_CHART_CONFIG` object built from exactly the
`websocket_url`, `topic` and `candle_interval` arguments of the call, each
interpolated verbatim (`configScript` is, definitionally, the literal script
text with the three arguments spliced in); no other state contributes. -/
theorem streaming_chart_injects_config (fs : String → Option String)
    (url topic : String) (height ci : Int) (rc : RenderCall)
    (hrc : streaming_chart fs url topic height ci = some rc) :
    ∃ pre post, rc.html = pre ++ configScript url topic ci ++ post := by
  cases h1 : fs "index.html" with
  | none => simp [streaming_chart, h1] at hrc
  | some html_content =>
    cases h2 : fs "style.css" with
    | none => simp [streaming_chart, h1, h2] at hrc
    | some css_content =>
      cases h3 : fs "main.js" with
      | none => simp [streaming_chart, h1, h2, h3] at hrc
      | some js_content =>
        cases h4 : fs "msgpack.js" with
        | none => simp [streaming_chart, h1, h2, h3, h4] at hrc
        | some msgpack_content =>
          simp only [streaming_chart, h1, h2, h3, h4, Option.some.injEq] at hrc
          refine ⟨htmlPart1 ++ css_content ++ htmlPart2 ++ html_content ++ htmlPart3,
            htmlPart4 ++ msgpack_content.replace exportLine "" ++ htmlPart5 ++
              js_content.replace importLine "" ++ htmlPart6, ?_⟩
          rw [← hrc]
          simp [fullHtml, String.append_assoc]

/-- C1 witness: on a concrete filesystem and concrete arguments the call
succeeds and the delivered document contains the injected configuration. -/
theorem streaming_chart_injects_config_witness :
    streaming_chart fsAll "ws://h/ws?token=t" "market.data@BTC" 500 60 =
      some { html := fullHtml "x" "x" (configScript "ws://h/ws?token=t" "market.data@BTC" 60)
                       ("x".replace exportLine "") ("x".replace importLine ""),
             height := 500, scrolling := false } ∧
    ∃ pre post,
      fullHtml "x" "x" (configScript "ws://h/ws?token=t" "market.data@BTC" 60)
          ("x".replace exportLine "") ("x".replace importLine "") =
        pre ++ configScript "ws://h/ws?token=t" "market.data@BTC" 60 ++ post := by
  refine ⟨by rfl, ?_⟩
  exact streaming_chart_injects_config fsAll "ws://h/ws?token=t" "market.data@BTC" 500 60 _ rfl

/-- C6: the `height` argument of `streaming_chart` is passed through
untouched as the height of the render surface and affects nothing else: the
generated HTML document is identical for any two calls differing only in
`height` (and scrolling is always disabled). -/
theorem streaming_chart_height_frame (fs : String → Option String)
    (url topic : String) (h₁ h₂ ci : Int) (rc₁ : RenderCall)
    (hrc : streaming_chart fs url topic h₁ ci = some rc₁) :
    rc₁.height = h₁ ∧ rc₁.scrolling = false ∧
      (streaming_chart fs url topic h₂ ci).map RenderCall.html = some rc₁.html := by
  cases h1 : fs "index.html" with
  | none => simp [streaming_chart, h1] at hrc
  | some html_content =>
    cases h2 : fs "style.css" with
    | none => simp [streaming_chart, h1, h2] at hrc
    | some css_content =>
      cases h3 : fs "main.js" with
      | none => simp [streaming_chart, h1, h2, h3] at hrc
      | some js_content =>
        cases h4 : fs "msgpack.js" with
        | none => simp [streaming_chart, h1, h2, h3, h4] at hrc
        | some msgpack_content =>
          simp only [streaming_chart, h1, h2, h3, h4, Option.some.injEq] at hrc
          subst hrc
          simp [streaming_chart, h1, h2, h3, h4]

/-- C6 witness: a concrete call whose render-surface height is the `height`
argument, while the document ignores it. -/
theorem streaming_chart_height_frame_witness :
    streaming_chart fsAll "ws://u" "t" 123 60 =
      some { html := fullHtml "x" "x" (configScript "ws://u" "t" 60)
                       ("x".replace exportLine "") ("x".replace importLine ""),
             height := 123, scrolling := false } ∧
    ({ html := fullHtml "x" "x" (configScript "ws://u" "t" 60)
         ("x".replace exportLine "") ("x".replace importLine ""),
       height := (123 : Int), scrolling := false } : RenderCall).height = 123 ∧
    (streaming_chart fsAll "ws://u" "t" 987 60).map RenderCall.html =
      some ({ html := fullHtml "x" "x" (configScript "ws://u" "t" 60)
                ("x".replace exportLine "") ("x".replace importLine ""),
              height := (123 : Int), scrolling := false } : RenderCall).html := by
  refine ⟨by rfl, ?_, ?_⟩
  · exact (streaming_chart_height_frame fsAll "ws://u" "t" 123 987 60 _ rfl).1
  · exact (streaming_chart_height_frame fsAll "ws://u" "t" 123 987 60 _ rfl).2.2

/-- C7: the connection endpoint, embedded bearer-token query parameter and
all, is treated as an opaque string: the delivered document is a fixed
context (independent of the URL) with the URL spliced in verbatim — the
engine never parses, rewrites, refreshes or rotates any part of it. -/
theorem streaming_chart_url_opaque (fs : String → Option String)
    (url topic : String) (height ci : Int) (rc : RenderCall)
    (hrc : streaming_chart fs url topic height ci = some rc) :
    ∃ pre post, rc.html = pre ++ url ++ post ∧
      ∀ (u : String) (rc₂ : RenderCall),
        streaming_chart fs u topic height ci = some rc₂ → rc₂.html = pre ++ u ++ post := by
  cases h1 : fs "index.html" with
  | none => simp [streaming_chart, h1] at hrc
  | some html_content =>
    cases h2 : fs "style.css" with
    | none => simp [streaming_chart, h1, h2] at hrc
    | some css_content =>
      cases h3 : fs "main.js" with
      | none => simp [streaming_chart, h1, h2, h3] at hrc
      | some js_content =>
        cases h4 : fs "msgpack.js" with
        | none => simp [streaming_chart, h1, h2, h3, h4] at hrc
        | some msgpack_content =>
          simp only [streaming_chart, h1, h2, h3, h4, Option.some.injEq] at hrc
          refine ⟨htmlPart1 ++ css_content ++ htmlPart2 ++ html_content ++ htmlPart3 ++ cfgPart1,
            cfgPart2 ++ topic ++ cfgPart3 ++ toString ci ++ cfgPart4 ++
              htmlPart4 ++ msgpack_content.replace exportLine "" ++ htmlPart5 ++
              js_content.replace importLine "" ++ htmlPart6, ?_, ?_⟩
          · rw [← hrc]
            simp [fullHtml, configScript, String.append_assoc]
          · intro u rc₂ hrc₂
            simp only [streaming_chart, h1, h2, h3, h4, Option.some.injEq] at hrc₂
            rw [← hrc₂]
            simp [fullHtml, configScript, String.append_assoc]

/-- C7 witness: a concrete call whose document splices the endpoint (with
its token query parameter) verbatim into a URL-independent context. -/
theorem streaming_chart_url_opaque_witness :
    streaming_chart fsAll "ws://h/ws?token=abc.def" "t" 500 60 =
      some { html := fullHtml "x" "x" (configScript "ws://h/ws?token=abc.def" "t" 60)
                       ("x".replace exportLine "") ("x".replace importLine ""),
             height := 500, scrolling := false } ∧
    ∃ pre post,
      fullHtml "x" "x" (configScript "ws://h/ws?token=abc.def" "t" 60)
          ("x".replace exportLine "") ("x".replace importLine "") =
        pre ++ "ws://h/ws?token=abc.def" ++ post ∧
      ∀ (u : String) (rc₂ : RenderCall),
        streaming_chart fsAll u "t" 500 60 = some rc₂ → rc₂.html = pre ++ u ++ post := by
  refine ⟨by rfl, ?_⟩
  exact streaming_chart_url_opaque fsAll "ws://h/ws?token=abc.def" "t" 500 60 _ rfl

/-- C8: `streaming_chart` performs no error handling around its file reads —
if any of the four frontend files is absent the call raises (returns no
render call); and in this repository the frontend directory holds no files,
so every call raises. -/
theorem streaming_chart_missing_file (fs : String → Option String)
    (url topic : String) (height ci : Int)
    (hmiss : fs "index.html" = none ∨ fs "style.css" = none ∨
      fs "main.js" = none ∨ fs "msgpack.js" = none) :
    streaming_chart fs url topic height ci = none ∧
      streaming_chart repoFrontendFs url topic height ci = none := by
  constructor
  · cases h1 : fs "index.html" <;> cases h2 : fs "style.css" <;>
      cases h3 : fs "main.js" <;> cases h4 : fs "msgpack.js" <;>
      simp [streaming_chart, h1, h2, h3, h4] <;>
      rcases hmiss with h | h | h | h <;> simp_all
  · rfl

/-- C8 witness: with the repository's (empty) frontend directory the call
raises. -/
theorem streaming_chart_missing_file_witness :
    (repoFrontendFs "index.html" = none ∨ repoFrontendFs "style.css" = none ∨
      repoFrontendFs "main.js" = none ∨ repoFrontendFs "msgpack.js" = none) ∧
    (streaming_chart repoFrontendFs "ws://u" "t" 500 60 = none ∧
      streaming_chart repoFrontendFs "ws://u" "t" 500 60 = none) :=
  ⟨Or.inl rfl, streaming_chart_missing_file repoFrontendFs "ws://u" "t" 500 60 (Or.inl rfl)⟩

/-- The pagination data computed by `TableManager.render_table`
(`src/table.py` lines 76–83): the clamped page number and the slice bounds
used for `filtered_df.iloc[start_idx:end_idx]`. -/
structure PageSlice where
  current_page : Nat
  start_idx : Nat
  end_idx : Nat
deriving Repr, DecidableEq

/-- The displayed-page computation of `TableManager.render_table`
(`src/table.py` lines 70–83).  When the filtered result is empty the method
returns early and renders no table or pagination (`none`).  Otherwise
`total_pages = max(1, ceil(total_rows / page_size))` (integer ceiling —
`page_size` is always one of 10/20/50/100 in the app), the stored page
request is clamped to `total_pages`, and the slice bounds are derived from
the clamped page. -/
def render_table (total_rows page_size page : Nat) : Option PageSlice :=
  if total_rows = 0 then none
  else
    let total_pages := max 1 ((total_rows + page_size - 1) / page_size)
    let current_page := min page total_pages
    let start_idx := (current_page - 1) * page_size
    let end_idx := min (start_idx + page_size) total_rows
    some ⟨current_page, start_idx, end_idx⟩

/-- C9: with a nonempty filtered result, a positive page size and a stored
page request ≥ 1, the displayed page is clamped to at most
`ceil(total_rows / page_size)` and the slice bounds satisfy
`start_idx < end_idx ≤ total_rows` (the page is never empty and never
indexes past the data); with an empty result nothing is rendered. -/
theorem render_table_pagination (total_rows page_size page : Nat) :
    (total_rows = 0 → render_table total_rows page_size page = none) ∧
    (∀ sl : PageSlice, 0 < total_rows → 0 < page_size → 1 ≤ page →
      render_table total_rows page_size page = some sl →
      1 ≤ sl.current_page ∧
      sl.current_page ≤ (total_rows + page_size - 1) / page_size ∧
      sl.start_idx < sl.end_idx ∧ sl.end_idx ≤ total_rows) := by
  constructor
  · intro h
    simp [render_table, h]
  · intro sl htr hps hpage hsl
    have htr0 : ¬ total_rows = 0 := by omega
    simp only [render_table, htr0, if_false, Option.some.injEq] at hsl
    subst hsl
    have hc1 : 1 ≤ (total_rows + page_size - 1) / page_size := by
      refine (Nat.le_div_iff_mul_le hps).2 ?_
      omega
    have hc2 : ((total_rows + page_size - 1) / page_size) * page_size ≤
        total_rows + page_size - 1 := Nat.div_mul_le_self _ _
    set c := (total_rows + page_size - 1) / page_size with hcdef
    have hmax : max 1 c = c := by omega
    rw [hmax]
    set q := min page c with hqdef
    have hq1 : 1 ≤ q := Nat.le_min.2 ⟨hpage, hc1⟩
    have hqc : q ≤ c := Nat.min_le_right _ _
    have hmul : (q - 1) * page_size + page_size ≤ c * page_size := by
      have h7 : ((q - 1) + 1) * page_size ≤ c * page_size :=
        Nat.mul_le_mul_right _ (by omega)
      simpa [Nat.add_mul, one_mul] using h7
    refine ⟨hq1, hqc, ?_, ?_⟩ <;> dsimp only <;> omega

/-- C9 witness: 5 rows, page size 2, requested page 7 — the page is clamped
to 3 and the slice is rows 4 to 5. -/
theorem render_table_pagination_witness :
    (0 < 5 ∧ 0 < 2 ∧ 1 ≤ 7 ∧ render_table 5 2 7 = some ⟨3, 4, 5⟩) ∧
    (1 ≤ (3 : Nat) ∧ 3 ≤ (5 + 2 - 1) / 2 ∧ 4 < 5 ∧ 5 ≤ 5) := by
  refine ⟨⟨by decide, by decide, by decide, by decide⟩, ?_⟩
  exact (render_table_pagination 5 2 7).2 ⟨3, 4, 5⟩ (by decide) (by decide)
    (by decide) (by decide)

/-- Success/failure of each side-effecting step of
`Exporter.export_to_markdown` (`src/exporter.py` lines 40–64): whether the
output directory exists or `os.makedirs` succeeds, whether writing figure
image `i` succeeds, and whether writing the markdown file succeeds.  A
`false` entry models the corresponding call raising an exception. -/
structure ExportEnv where
  dirOk : Bool
  figOk : Nat → Bool
  mdOk : Bool

/-- The path `f"\x7bname_path\x7d/\x7bname_path\x7d_image\x7bi\x7d.png"` of
figure image `i` (`src/exporter.py` line 49). -/
def figFile (name : String) (i : Nat) : String :=
  name ++ "/" ++ name ++ "_image" ++ toString i ++ ".png"

/-- The path `f"\x7bname_path\x7d/\x7bname_path\x7d_markdown.md"` of the
markdown file (`src/exporter.py` line 44). -/
def mdFile (name : String) : String :=
  name ++ "/" ++ name ++ "_markdown.md"

/-- How a call to `export_to_markdown` ends: a normal `return b`, or a
propagated exception. -/
inductive ExportResult
  | returned (b : Bool)
  | raised
deriving Repr, DecidableEq

/-- Observable outcome of `export_to_markdown`: the files it wrote to disk,
in order, and how the call ended. -/
structure ExportOutcome where
  written : List String
  result : ExportResult
deriving Repr, DecidableEq

/-- The figure-image loop of `export_to_markdown` (`src/exporter.py` lines
48–50), writing images `i, i+1, …` for the remaining figure count: returns
the files written and whether the loop completed without an exception (a
failing `fig.write_image` aborts the loop, leaving earlier images on
disk). -/
def writeFigures (env : ExportEnv) (name : String) : Nat → Nat → List String × Bool
  | _, 0 => ([], true)
  | i, n + 1 =>
    if env.figOk i then
      let rest := writeFigures env name (i + 1) n
      (figFile name i :: rest.1, rest.2)
    else ([], false)

/-- `Exporter.export_to_markdown` (`src/exporter.py` lines 40–64).  The
directory is created before the `try` block, so its failure propagates.
Inside the `try`, every figure image is written, then the markdown file; any
exception is caught and turns into `return False`; otherwise the call
returns `True`. -/
def export_to_markdown (env : ExportEnv) (name : String) (nFigs : Nat) : ExportOutcome :=
  if !env.dirOk then ⟨[], .raised⟩
  else
    let figs := writeFigures env name 0 nFigs
    if !figs.2 then ⟨figs.1, .returned false⟩
    else if !env.mdOk then ⟨figs.1, .returned false⟩
    else ⟨figs.1 ++ [mdFile name], .returned true⟩

/-- When every figure write from `i` on succeeds, the loop writes images
`i, …, i+n-1` and completes. -/
theorem writeFigures_all_ok (env : ExportEnv) (name : String) (n i : Nat)
    (h : ∀ j, j < n → env.figOk (i + j) = true) :
    writeFigures env name i n = ((List.range' i n).map (figFile name), true) := by
  induction n generalizing i with
  | zero => simp [writeFigures]
  | succ n ih =>
    have h0 : env.figOk i = true := by simpa using h 0 (Nat.succ_pos n)
    have hrest := ih (i + 1) (fun j hj => by
      have h9 := h (j + 1) (by omega)
      have h8 : i + 1 + j = i + (j + 1) := by omega
      rw [h8]
      exact h9)
    simp [writeFigures, h0, hrest, List.range'_succ]

/-- When figure write `i + k` is the first to fail, the loop stops there,
keeping the `k` earlier images. -/
theorem writeFigures_first_fail (env : ExportEnv) (name : String) (n i k : Nat)
    (hk : k < n) (hok : ∀ j, j < k → env.figOk (i + j) = true)
    (hfail : env.figOk (i + k) = false) :
    writeFigures env name i n = ((List.range' i k).map (figFile name), false) := by
  induction n generalizing i k with
  | zero => omega
  | succ n ih =>
    cases k with
    | zero =>
      have h0 : env.figOk i = false := by simpa using hfail
      simp [writeFigures, h0]
    | succ k =>
      have h0 : env.figOk i = true := by simpa using hok 0 (Nat.succ_pos k)
      have hrest := ih (i + 1) k (by omega)
        (fun j hj => by
          have h9 := hok (j + 1) (by omega)
          have h8 : i + 1 + j = i + (j + 1) := by omega
          rw [h8]
          exact h9)
        (by
          have h8 : i + 1 + k = i + (k + 1) := by omega
          rw [h8]
          exact hfail)
      simp [writeFigures, h0, hrest, List.range'_succ]

/-- The loop completes exactly when every figure write succeeds. -/
theorem writeFigures_snd_true (env : ExportEnv) (name : String) (n i : Nat) :
    (writeFigures env name i n).2 = true ↔ ∀ j, j < n → env.figOk (i + j) = true := by
  induction n generalizing i with
  | zero => simp [writeFigures]
  | succ n ih =>
    cases hfig : env.figOk i with
    | false =>
      simp only [writeFigures, hfig, if_false]
      constructor
      · intro h
        simp at h
      · intro h
        have := h 0 (Nat.succ_pos n)
        simp [hfig] at this
    | true =>
      simp only [writeFigures, hfig, if_true]
      rw [ih (i + 1)]
      constructor
      · intro h j hj
        cases j with
        | zero => simpa using hfig
        | succ j =>
          have h9 := h j (by omega)
          have h8 : i + 1 + j = i + (j + 1) := by omega
          rw [← h8]
          exact h9
      · intro h j hj
        have h9 := h (j + 1) (by omega)
        have h8 : i + 1 + j = i + (j + 1) := by omega
        rw [h8]
        exact h9

/-- C10: `export_to_markdown` propagates a failure while creating the output
directory (which happens before the exception handler); once the directory
exists it never propagates an exception, returning `True` exactly when every
figure image and the markdown file were written without one and `False`
otherwise; and it is not atomic on failure — when figure write `k` is the
first to fail, the `k` images already written remain on disk and the call
returns `False`. -/
theorem export_to_markdown_contract (env : ExportEnv) (name : String) (nFigs : Nat) :
    (env.dirOk = false → export_to_markdown env name nFigs = ⟨[], .raised⟩) ∧
    (env.dirOk = true → (export_to_markdown env name nFigs).result ≠ .raised) ∧
    (env.dirOk = true →
      ((export_to_markdown env name nFigs).result = .returned true ↔
        (∀ i, i < nFigs → env.figOk i = true) ∧ env.mdOk = true)) ∧
    (env.dirOk = true → ∀ k, k < nFigs → (∀ i, i < k → env.figOk i = true) →
      env.figOk k = false →
      export_to_markdown env name nFigs =
        ⟨(List.range k).map (figFile name), .returned false⟩) := by
  refine ⟨?_, ?_, ?_, ?_⟩
  · intro h
    simp [export_to_markdown, h]
  · intro h
    cases hfig : (writeFigures env name 0 nFigs).2 <;> cases hmd : env.mdOk <;>
      simp [export_to_markdown, h, hfig, hmd]
  · intro h
    have hchar : (export_to_markdown env name nFigs).result = .returned true ↔
        ((writeFigures env name 0 nFigs).2 = true ∧ env.mdOk = true) := by
      cases hfig : (writeFigures env name 0 nFigs).2 <;> cases hmd : env.mdOk <;>
        simp [export_to_markdown, h, hfig, hmd]
    rw [hchar, writeFigures_snd_true]
    constructor
    · rintro ⟨ha, hb⟩
      exact ⟨fun i hi => by simpa using ha i hi, hb⟩
    · rintro ⟨ha, hb⟩
      exact ⟨fun j hj => by simpa using ha j hj, hb⟩
  · intro h k hk hok hfail
    have hw := writeFigures_first_fail env name nFigs 0 k hk
      (fun j hj => by simpa using hok j hj) (by simpa using hfail)
    simp [export_to_markdown, h, hw, List.range_eq_range']

/-- A concrete environment for `export_to_markdown`: the directory can be
created, figure 0 writes fine, figure 1 raises, the markdown write would
succeed. -/
def envW : ExportEnv := ⟨true, fun i => decide (i = 0), true⟩

/-- C10 witness: with two figures where the second write raises, the call
returns `False` and the first image remains on disk. -/
theorem export_to_markdown_contract_witness :
    envW.dirOk = true ∧ 1 < 2 ∧ (∀ i, i < 1 → envW.figOk i = true) ∧
      envW.figOk 1 = false ∧
      export_to_markdown envW "out" 2 =
        ⟨(List.range 1).map (figFile "out"), .returned false⟩ := by
  refine ⟨rfl, by decide, by decide, rfl, ?_⟩
  exact (export_to_markdown_contract envW "out" 2).2.2.2 rfl 1 (by decide)
    (by decide) rfl

/-- Modelled from the spec: the messages crossing the frame-codec boundary
(§6 wire protocol).  The codec itself lives in the frontend file
`msgpack.js`, which is absent from the repository; only its exported names
(`encodeMessage`, `decodeMessage`) are visible from the inlining code.
Control frames carry a subscribe/unsubscribe request or an ack/error with a
detail string; data frames carry one tick event with symbol, price, size,
side and an epoch-microseconds timestamp.  Numeric fields are modelled as
integers. -/
inductive WireMessage
  | subscribe (topic : String)
  | unsubscribe (topic : String)
  | ack (topic detail : String)
  | errorFrame (topic detail : String)
  | tick (symbol : String) (price size : Int) (side : String) (ts : Nat)
deriving Repr, DecidableEq

/-- Modelled from the spec: a decode failure carrying a reason (§4.1). -/
structure DecodeError where
  reason : String
deriving Repr, DecidableEq

/-- A natural number on the wire: base-256 digit count, then the digits. -/
def encNat (n : Nat) : List Nat :=
  (Nat.digits 256 n).length :: Nat.digits 256 n

/-- Defensive reader for `encNat`: fails on truncated input. -/
def readNat : List Nat → Option (Nat × List Nat)
  | [] => none
  | k :: rest =>
    if rest.length < k then none
    else some (Nat.ofDigits 256 (rest.take k), rest.drop k)

/-- An integer on the wire: a sign octet, then the magnitude. -/
def encInt (i : Int) : List Nat :=
  (if i < 0 then 1 else 0) :: encNat i.natAbs

/-- Defensive reader for `encInt`. -/
def readInt : List Nat → Option (Int × List Nat)
  | [] => none
  | s :: rest =>
    match readNat rest with
    | none => none
    | some (n, rest₂) => some (if s = 1 then -(n : Int) else (n : Int), rest₂)

/-- A string on the wire: character count, then one slot per code point. -/
def encString (s : String) : List Nat :=
  encNat s.data.length ++ s.data.map Char.toNat

/-- Defensive reader for `encString`. -/
def readString : List Nat → Option (String × List Nat) := fun l =>
  match readNat l with
  | none => none
  | some (k, rest) =>
    if rest.length < k then none
    else some (String.mk ((rest.take k).map Char.ofNat), rest.drop k)

/-- Modelled from the spec: `encode(message) -> bytes` of the frame codec
(§4.1) — a compact, self-describing binary form: a tag octet for the message
kind followed by the encoded fields. -/
def encodeMessage : WireMessage → List Nat
  | .subscribe topic => 0 :: encString topic
  | .unsubscribe topic => 1 :: encString topic
  | .ack topic detail => 2 :: (encString topic ++ encString detail)
  | .errorFrame topic detail => 3 :: (encString topic ++ encString detail)
  | .tick symbol price size side ts =>
      4 :: (encString symbol ++ encInt price ++ encInt size ++ encString side ++ encNat ts)

/-- Modelled from the spec: `decode(bytes) -> message | DecodeError` of the
frame codec (§4.1).  Decoding is defensive: malformed or truncated input
returns a `DecodeError` with a reason rather than failing fatally, and the
codec is a pure, stateless function of the input bytes. -/
def decodeMessage (bytes : List Nat) : Except DecodeError WireMessage :=
  match bytes with
  | [] => .error ⟨"empty frame"⟩
  | 0 :: rest =>
    match readString rest with
    | some (topic, []) => .ok (.subscribe topic)
    | some _ => .error ⟨"trailing bytes"⟩
    | none => .error ⟨"truncated frame"⟩
  | 1 :: rest =>
    match readString rest with
    | some (topic, []) => .ok (.unsubscribe topic)
    | some _ => .error ⟨"trailing bytes"⟩
    | none => .error ⟨"truncated frame"⟩
  | 2 :: rest =>
    match readString rest with
    | some (topic, rest₂) =>
      match readString rest₂ with
      | some (detail, []) => .ok (.ack topic detail)
      | some _ => .error ⟨"trailing bytes"⟩
      | none => .error ⟨"truncated frame"⟩
    | none => .error ⟨"truncated frame"⟩
  | 3 :: rest =>
    match readString rest with
    | some (topic, rest₂) =>
      match readString rest₂ with
      | some (detail, []) => .ok (.errorFrame topic detail)
      | some _ => .error ⟨"trailing bytes"⟩
      | none => .error ⟨"truncated frame"⟩
    | none => .error ⟨"truncated frame"⟩
  | 4 :: rest =>
    match readString rest with
    | some (symbol, r₁) =>
      match readInt r₁ with
      | some (price, r₂) =>
        match readInt r₂ with
        | some (size, r₃) =>
          match readString r₃ with
          | some (side, r₄) =>
            match readNat r₄ with
            | some (ts, []) => .ok (.tick symbol price size side ts)
            | some _ => .error ⟨"trailing bytes"⟩
            | none => .error ⟨"truncated frame"⟩
          | none => .error ⟨"truncated frame"⟩
        | none => .error ⟨"truncated frame"⟩
      | none => .error ⟨"truncated frame"⟩
    | none => .error ⟨"truncated frame"⟩
  | _ :: _ => .error ⟨"unknown message tag"⟩

/-- Reading back an encoded natural number recovers it and the remainder. -/
theorem readNat_encNat (n : Nat) (r : List Nat) :
    readNat (encNat n ++ r) = some (n, r) := by
  have hlen : ¬ (Nat.digits 256 n ++ r).length < (Nat.digits 256 n).length := by
    simp [List.length_append]
  simp only [encNat, List.cons_append, readNat, hlen, if_false,
    List.take_left, List.drop_left]
  simp [Nat.ofDigits_digits]

/-- Reading back an encoded integer recovers it and the remainder. -/
theorem readInt_encInt (i : Int) (r : List Nat) :
    readInt (encInt i ++ r) = some (i, r) := by
  by_cases hneg : i < 0
  · simp only [encInt, if_pos hneg, List.cons_append, readInt, readNat_encNat]
    have habs : -(i.natAbs : Int) = i := by omega
    simpa using habs
  · simp only [encInt, if_neg hneg, List.cons_append, readInt, readNat_encNat]
    have habs : (i.natAbs : Int) = i := by omega
    simpa [hneg] using habs

/-- Reading back an encoded string recovers it and the remainder. -/
theorem readString_encString (s : String) (r : List Nat) :
    readString (encString s ++ r) = some (s, r) := by
  have hassoc : encString s ++ r =
      encNat s.data.length ++ (s.data.map Char.toNat ++ r) := by
    simp [encString, List.append_assoc]
  rw [hassoc]
  have hmaplen : (s.data.map Char.toNat).length = s.data.length := List.length_map _ _
  simp only [readString, readNat_encNat]
  rw [← hmaplen]
  have hnlt : ¬ (s.data.map Char.toNat ++ r).length < (s.data.map Char.toNat).length := by
    simp [List.length_append]
  simp only [hnlt, if_false, List.take_left, List.drop_left]
  have hid : List.map (Char.ofNat ∘ Char.toNat) s.data = s.data := by
    rw [show (Char.ofNat ∘ Char.toNat) = id from funext fun c => Char.ofNat_toNat c]
    exact List.map_id _
  simp [List.map_map, hid]

/-- C2: the frame codec round-trips — decoding the bytes produced by
encoding any valid message yields that message back; both directions are
pure functions of their input, so identical input bytes always decode to an
identical value. -/
theorem decodeMessage_encodeMessage (m : WireMessage) :
    decodeMessage (encodeMessage m) = .ok m := by
  cases m with
  | subscribe topic =>
    have h := readString_encString topic []
    simp only [encodeMessage, decodeMessage]
    simp [List.append_nil] at h
    simp [h]
  | unsubscribe topic =>
    have h := readString_encString topic []
    simp only [encodeMessage, decodeMessage]
    simp [List.append_nil] at h
    simp [h]
  | ack topic detail =>
    have h2 := readString_encString detail []
    simp [List.append_nil] at h2
    simp only [encodeMessage, decodeMessage, readString_encString, h2]
  | errorFrame topic detail =>
    have h2 := readString_encString detail []
    simp [List.append_nil] at h2
    simp only [encodeMessage, decodeMessage, readString_encString, h2]
  | tick symbol price size side ts =>
    have h5 : readNat (encNat ts) = some (ts, []) := by
      have := readNat_encNat ts []
      simpa using this
    simp only [encodeMessage, decodeMessage, List.append_assoc,
      readString_encString, readInt_encInt, readNat_encNat, h5]

/-- Modelled from the spec: the side of a tick event (§3, enum
`buy`/`sell`/`unknown`). -/
inductive Side
  | buy
  | sell
  | unknown
deriving Repr, DecidableEq

/-- Modelled from the spec: a tick event (§3 data model), immutable once
decoded.  Prices and sizes are decimals, modelled as integers; `ts` is the
timestamp in whole seconds of the scenarios of §8. -/
structure Tick where
  symbol : String
  price : Int
  size : Int
  side : Side
  ts : Nat
deriving Repr, DecidableEq

/-- Modelled from the spec: a candle bucket (§3 data model). -/
structure Bucket where
  bucket_start : Nat
  interval_seconds : Nat
  open_price : Int
  high : Int
  low : Int
  close : Int
  volume : Int
  tick_count : Nat
deriving Repr, DecidableEq

/-- Modelled from the spec: `bucket_start(t) = floor(t.timestamp / interval)
* interval` (§4.4 step 1). -/
def bucketStart (interval : Nat) (t : Tick) : Nat :=
  t.ts / interval * interval

/-- Modelled from the spec: the bucket opened for a tick (§4.4 step 2):
`open = high = low = close = t.price`, `volume = t.size`,
`tick_count = 1`. -/
def freshBucket (interval : Nat) (t : Tick) : Bucket :=
  { bucket_start := bucketStart interval t, interval_seconds := interval,
    open_price := t.price, high := t.price, low := t.price, close := t.price,
    volume := t.size, tick_count := 1 }

/-- Modelled from the spec: folding a tick into the current bucket (§4.4
step 3): `high = max(high, t.price)`, `low = min(low, t.price)`,
`close = t.price`, `volume += t.size`, `tick_count += 1`. -/
def updateBucket (b : Bucket) (t : Tick) : Bucket :=
  { b with high := max b.high t.price, low := min b.low t.price,
           close := t.price, volume := b.volume + t.size,
           tick_count := b.tick_count + 1 }

/-- Modelled from the spec: the aggregator output events (§2, §4.5). -/
inductive BarEvent
  | barOpened (b : Bucket)
  | barUpdated (b : Bucket)
  | barClosed (b : Bucket)
deriving Repr, DecidableEq

/-- Modelled from the spec: the candle-aggregator state (§4.4): the fixed
interval, at most one current (open) bucket, the history of closed buckets,
and the discarded-late-tick metric. -/
structure AggState where
  interval_seconds : Nat
  current : Option Bucket
  history : List Bucket
  discarded_late_ticks : Nat
deriving Repr, DecidableEq

/-- Modelled from the spec: the aggregator's empty initial state; the
interval is fixed at construction (§4.4). -/
def initAgg (interval : Nat) : AggState :=
  { interval_seconds := interval, current := none, history := [],
    discarded_late_ticks := 0 }

/-- Modelled from the spec: the core per-tick algorithm of the candle
aggregator (§4.4): open a bucket when none exists or the tick belongs to a
later bucket (closing the current one into history first), fold the tick
into the current bucket when it belongs to it, and drop it while counting
the discarded-late-tick metric when it belongs to an earlier bucket. -/
def stepTick (s : AggState) (t : Tick) : AggState × List BarEvent :=
  let bs := bucketStart s.interval_seconds t
  match s.current with
  | none =>
    let nb := freshBucket s.interval_seconds t
    ({ s with current := some nb }, [.barOpened nb])
  | some cur =>
    if cur.bucket_start < bs then
      let nb := freshBucket s.interval_seconds t
      ({ s with history := s.history ++ [cur], current := some nb },
        [.barClosed cur, .barOpened nb])
    else if bs = cur.bucket_start then
      let ub := updateBucket cur t
      ({ s with current := some ub }, [.barUpdated ub])
    else
      ({ s with discarded_late_ticks := s.discarded_late_ticks + 1 }, [])

/-- Modelled from the spec: the aggregator consumes decoded tick events in
arrival order (§5), producing the final state and the emitted events in
order. -/
def runAgg (s : AggState) : List Tick → AggState × List BarEvent
  | [] => (s, [])
  | t :: ts =>
    let first := stepTick s t
    let rest := runAgg first.1 ts
    (rest.1, first.2 ++ rest.2)

/-- The ticks folded into a bucket, in order: a bucket arises by opening on
its first tick and folding in each later tick (the two bucket-forming
operations of §4.4). -/
inductive FoldedInto : Bucket → List Tick → Prop
  | fresh (interval : Nat) (t : Tick) : FoldedInto (freshBucket interval t) [t]
  | update (b : Bucket) (l : List Tick) (t : Tick) :
      FoldedInto b l → FoldedInto (updateBucket b t) (l ++ [t])

/-- A bucket always has at least one folded tick. -/
theorem FoldedInto.ne_nil {b : Bucket} {l : List Tick} (h : FoldedInto b l) :
    l ≠ [] := by
  induction h with
  | fresh interval t => simp
  | update b l t _ _ => simp

/-- `high` is an upper bound on the folded prices and `low` a lower bound. -/
theorem FoldedInto.price_bounds {b : Bucket} {l : List Tick} (h : FoldedInto b l) :
    ∀ t ∈ l, b.low ≤ t.price ∧ t.price ≤ b.high := by
  induction h with
  | fresh interval t =>
    intro u hu
    simp at hu
    subst hu
    simp [freshBucket]
  | update b l t hf ih =>
    intro u hu
    simp at hu
    rcases hu with hu | hu
    · have := ih u hu
      constructor
      · exact le_trans (min_le_left _ _) this.1
      · exact le_trans this.2 (le_max_left _ _)
    · subst hu
      exact ⟨min_le_right _ _, le_max_right _ _⟩

/-- `high` is attained by some folded tick. -/
theorem FoldedInto.high_mem {b : Bucket} {l : List Tick} (h : FoldedInto b l) :
    b.high ∈ l.map Tick.price := by
  induction h with
  | fresh interval t => simp [freshBucket]
  | update b l t hf ih =>
    rcases max_choice b.high t.price with hm | hm <;>
      simp only [updateBucket, hm, List.map_append, List.mem_append]
    · exact Or.inl ih
    · exact Or.inr (by simp)

/-- `low` is attained by some folded tick. -/
theorem FoldedInto.low_mem {b : Bucket} {l : List Tick} (h : FoldedInto b l) :
    b.low ∈ l.map Tick.price := by
  induction h with
  | fresh interval t => simp [freshBucket]
  | update b l t hf ih =>
    rcases min_choice b.low t.price with hm | hm <;>
      simp only [updateBucket, hm, List.map_append, List.mem_append]
    · exact Or.inl ih
    · exact Or.inr (by simp)

/-- `open` is the price of the first folded tick. -/
theorem FoldedInto.open_head {b : Bucket} {l : List Tick} (h : FoldedInto b l) :
    ∃ t₀, l.head? = some t₀ ∧ b.open_price = t₀.price := by
  induction h with
  | fresh interval t => exact ⟨t, rfl, rfl⟩
  | update b l t hf ih =>
    obtain ⟨t₀, h1, h2⟩ := ih
    refine ⟨t₀, ?_, h2⟩
    rw [List.head?_append, h1]
    rfl

/-- `close` is the price of the most recently folded tick. -/
theorem FoldedInto.close_last {b : Bucket} {l : List Tick} (h : FoldedInto b l) :
    ∃ tₙ, l.getLast? = some tₙ ∧ b.close = tₙ.price := by
  induction h with
  | fresh interval t => exact ⟨t, rfl, rfl⟩
  | update b l t hf ih => exact ⟨t, List.getLast?_concat l, rfl⟩

/-- `volume` is the sum of the folded tick sizes and `tick_count` their
number. -/
theorem FoldedInto.volume_sum {b : Bucket} {l : List Tick} (h : FoldedInto b l) :
    b.volume = (l.map Tick.size).sum ∧ b.tick_count = l.length := by
  induction h with
  | fresh interval t => simp [freshBucket]
  | update b l t hf ih =>
    simp [updateBucket, List.map_append, ih.1, ih.2]

/-- The OHLC ordering invariant of any bucket with at least one folded
tick. -/
theorem FoldedInto.ohlc_order {b : Bucket} {l : List Tick} (h : FoldedInto b l) :
    b.low ≤ b.open_price ∧ b.open_price ≤ b.high ∧
      b.low ≤ b.close ∧ b.close ≤ b.high := by
  induction h with
  | fresh interval t => simp [freshBucket]
  | update b l t hf ih =>
    refine ⟨?_, ?_, ?_, ?_⟩
    · exact le_trans (min_le_left _ _) ih.1
    · exact le_trans ih.2.1 (le_max_left _ _)
    · exact min_le_right _ _
    · exact le_max_right _ _

/-- Every bucket held by the aggregator (closed or current) was built by
folding a list of ticks, all of which satisfy `P`. -/
def BucketsOk (P : Tick → Prop) (s : AggState) : Prop :=
  ∀ b : Bucket, (b ∈ s.history ∨ s.current = some b) →
    ∃ l, FoldedInto b l ∧ ∀ t ∈ l, P t

/-- One aggregator step preserves `BucketsOk`. -/
theorem stepTick_bucketsOk (P : Tick → Prop) (s : AggState) (t : Tick)
    (hP : P t) (hs : BucketsOk P s) : BucketsOk P (stepTick s t).1 := by
  intro b hb
  cases hcur : s.current with
  | none =>
    simp only [stepTick, hcur] at hb
    rcases hb with hb | hb
    · exact hs b (Or.inl hb)
    · simp only [Option.some.injEq] at hb
      subst hb
      exact ⟨[t], FoldedInto.fresh _ _, by simpa using hP⟩
  | some cur =>
    by_cases hlt : cur.bucket_start < bucketStart s.interval_seconds t
    · simp only [stepTick, hcur, if_pos hlt] at hb
      rcases hb with hb | hb
      · simp only [List.mem_append, List.mem_singleton] at hb
        rcases hb with hb | hb
        · exact hs b (Or.inl hb)
        · subst hb
          exact hs b (Or.inr hcur)
      · simp only [Option.some.injEq] at hb
        subst hb
        exact ⟨[t], FoldedInto.fresh _ _, by simpa using hP⟩
    · by_cases heq : bucketStart s.interval_seconds t = cur.bucket_start
      · simp only [stepTick, hcur, if_neg hlt, if_pos heq] at hb
        rcases hb with hb | hb
        · exact hs b (Or.inl hb)
        · simp only [Option.some.injEq] at hb
          subst hb
          obtain ⟨l, hf, hl⟩ := hs cur (Or.inr hcur)
          refine ⟨l ++ [t], hf.update _ _ _, ?_⟩
          intro u hu
          simp only [List.mem_append, List.mem_singleton] at hu
          rcases hu with hu | hu
          · exact hl u hu
          · subst hu
            exact hP
      · simp only [stepTick, hcur, if_neg hlt, if_neg heq] at hb
        rcases hb with hb | hb
        · exact hs b (Or.inl hb)
        · exact hs b (Or.inr (hcur.trans hb))

/-- Processing any tick sequence preserves `BucketsOk`. -/
theorem runAgg_bucketsOk (P : Tick → Prop) (s : AggState) (ts : List Tick)
    (hts : ∀ t ∈ ts, P t) (hs : BucketsOk P s) : BucketsOk P (runAgg s ts).1 := by
  induction ts generalizing s with
  | nil => exact hs
  | cons t ts ih =>
    have h1 : P t := hts t (by simp)
    have h2 : ∀ u ∈ ts, P u := fun u hu => hts u (by simp [hu])
    exact ih (stepTick s t).1 h2 (stepTick_bucketsOk P s t h1 hs)

/-- C3: every closed bucket produced by the aggregator from any tick
sequence (with nonnegative tick sizes, as trade sizes are) satisfies the
bucket invariant — `low ≤ open ≤ high`, `low ≤ close ≤ high`,
`volume ≥ 0` — and for the list of ticks folded into it, `high` is the
maximum and `low` the minimum folded price (an upper/lower bound that is
attained), `open` is the first folded tick's price, `close` the most
recently folded tick's price, `volume` the sum of the folded sizes and
`tick_count` their number. -/
theorem closed_bucket_invariants (interval : Nat) (ticks : List Tick)
    (hsz : ∀ t ∈ ticks, 0 ≤ t.size) (b : Bucket)
    (hb : b ∈ (runAgg (initAgg interval) ticks).1.history) :
    (b.low ≤ b.open_price ∧ b.open_price ≤ b.high ∧
      b.low ≤ b.close ∧ b.close ≤ b.high ∧ 0 ≤ b.volume) ∧
    ∃ l, l ≠ [] ∧ FoldedInto b l ∧
      (∀ t ∈ l, b.low ≤ t.price ∧ t.price ≤ b.high) ∧
      b.high ∈ l.map Tick.price ∧ b.low ∈ l.map Tick.price ∧
      (∃ t₀, l.head? = some t₀ ∧ b.open_price = t₀.price) ∧
      (∃ tₙ, l.getLast? = some tₙ ∧ b.close = tₙ.price) ∧
      b.volume = (l.map Tick.size).sum ∧ b.tick_count = l.length := by
  have hinit : BucketsOk (fun t => 0 ≤ t.size) (initAgg interval) := by
    intro b hb
    rcases hb with hb | hb
    · simp [initAgg] at hb
    · simp [initAgg] at hb
  obtain ⟨l, hf, hl⟩ :=
    runAgg_bucketsOk (fun t => 0 ≤ t.size) (initAgg interval) ticks hsz hinit b (Or.inl hb)
  have hvol := hf.volume_sum
  have hnn : 0 ≤ b.volume := by
    rw [hvol.1]
    refine List.sum_nonneg ?_
    intro x hx
    simp only [List.mem_map] at hx
    obtain ⟨u, hu, rfl⟩ := hx
    exact hl u hu
  refine ⟨⟨hf.ohlc_order.1, hf.ohlc_order.2.1, hf.ohlc_order.2.2.1,
    hf.ohlc_order.2.2.2, hnn⟩,
    l, hf.ne_nil, hf, hf.price_bounds, hf.high_mem, hf.low_mem,
    hf.open_head, hf.close_last, hvol.1, hvol.2⟩

/-- The two-tick scenario of §8 (bucket rollover): ticks at `t=5` and
`t=65` with a 60-second interval. -/
def tickA : Tick := ⟨"BTC", 100, 1, Side.buy, 5⟩

/-- The second tick of the rollover scenario, opening bucket `B`. -/
def tickB : Tick := ⟨"BTC", 110, 2, Side.sell, 65⟩

/-- C3 witness: running the rollover scenario closes bucket `A`
(`bucket_start = 0`, all OHLC fields 100) and its invariants hold. -/
theorem closed_bucket_invariants_witness :
    (∀ t ∈ [tickA, tickB], 0 ≤ t.size) ∧
    freshBucket 60 tickA ∈ (runAgg (initAgg 60) [tickA, tickB]).1.history ∧
    ((freshBucket 60 tickA).low ≤ (freshBucket 60 tickA).open_price ∧
      (freshBucket 60 tickA).open_price ≤ (freshBucket 60 tickA).high ∧
      (freshBucket 60 tickA).low ≤ (freshBucket 60 tickA).close ∧
      (freshBucket 60 tickA).close ≤ (freshBucket 60 tickA).high ∧
      0 ≤ (freshBucket 60 tickA).volume) ∧
    ∃ l, l ≠ [] ∧ FoldedInto (freshBucket 60 tickA) l ∧
      (∀ t ∈ l, (freshBucket 60 tickA).low ≤ t.price ∧
        t.price ≤ (freshBucket 60 tickA).high) ∧
      (freshBucket 60 tickA).high ∈ l.map Tick.price ∧
      (freshBucket 60 tickA).low ∈ l.map Tick.price ∧
      (∃ t₀, l.head? = some t₀ ∧ (freshBucket 60 tickA).open_price = t₀.price) ∧
      (∃ tₙ, l.getLast? = some tₙ ∧ (freshBucket 60 tickA).close = tₙ.price) ∧
      (freshBucket 60 tickA).volume = (l.map Tick.size).sum ∧
      (freshBucket 60 tickA).tick_count = l.length := by
  refine ⟨by decide, by decide, ?_⟩
  have h := closed_bucket_invariants 60 [tickA, tickB] (by decide)
    (freshBucket 60 tickA) (by decide)
  exact ⟨h.1, h.2⟩

/-- The `bucket_start` values carried by the `bar-opened` events of an event
stream, in emission order. -/
def openedStarts (evts : List BarEvent) : List Nat :=
  evts.filterMap fun e =>
    match e with
    | .barOpened b => some b.bucket_start
    | _ => none

/-- `openedStarts` distributes over event-stream concatenation. -/
theorem openedStarts_append (a b : List BarEvent) :
    openedStarts (a ++ b) = openedStarts a ++ openedStarts b :=
  List.filterMap_append a b _

/-- Bucket starts opened while processing a tick sequence are strictly
increasing, and all lie strictly above the current bucket's start. -/
theorem runAgg_opened_chain (ts : List Tick) (s : AggState) :
    List.Pairwise (· < ·) (openedStarts (runAgg s ts).2) ∧
      ∀ b : Bucket, s.current = some b →
        ∀ x ∈ openedStarts (runAgg s ts).2, b.bucket_start < x := by
  induction ts generalizing s with
  | nil => simp [runAgg, openedStarts]
  | cons t ts ih =>
    have hsplit : (runAgg s (t :: ts)).2 =
        (stepTick s t).2 ++ (runAgg (stepTick s t).1 ts).2 := rfl
    rw [hsplit, openedStarts_append]
    cases hcur : s.current with
    | none =>
      have hev : (stepTick s t).2 = [.barOpened (freshBucket s.interval_seconds t)] := by
        simp [stepTick, hcur]
      have hst : (stepTick s t).1 =
          { s with current := some (freshBucket s.interval_seconds t) } := by
        simp [stepTick, hcur]
      obtain ⟨ih1, ih2⟩ := ih (stepTick s t).1
      have habove := ih2 (freshBucket s.interval_seconds t) (by rw [hst])
      rw [hev]
      rw [show openedStarts [BarEvent.barOpened (freshBucket s.interval_seconds t)] =
        [(freshBucket s.interval_seconds t).bucket_start] from rfl]
      rw [List.singleton_append]
      refine ⟨List.pairwise_cons.2 ⟨habove, ih1⟩, ?_⟩
      intro b hb
      exact absurd hb (by simp)
    | some cur =>
      by_cases hlt : cur.bucket_start < bucketStart s.interval_seconds t
      · have hev : (stepTick s t).2 =
            [.barClosed cur, .barOpened (freshBucket s.interval_seconds t)] := by
          simp [stepTick, hcur, hlt]
        have hst : (stepTick s t).1 =
            { s with history := s.history ++ [cur],
                     current := some (freshBucket s.interval_seconds t) } := by
          simp [stepTick, hcur, hlt]
        obtain ⟨ih1, ih2⟩ := ih (stepTick s t).1
        have habove := ih2 (freshBucket s.interval_seconds t) (by rw [hst])
        have hfs : (freshBucket s.interval_seconds t).bucket_start =
            bucketStart s.interval_seconds t := rfl
        rw [hev]
        rw [show openedStarts [BarEvent.barClosed cur,
          BarEvent.barOpened (freshBucket s.interval_seconds t)] =
          [(freshBucket s.interval_seconds t).bucket_start] from rfl]
        rw [List.singleton_append]
        refine ⟨List.pairwise_cons.2 ⟨habove, ih1⟩, ?_⟩
        intro b hb x hx
        injection hb with hb
        subst hb
        rcases List.mem_cons.1 hx with hx | hx
        · subst hx
          rw [hfs]
          exact hlt
        · have h2 := habove x hx
          rw [hfs] at h2
          omega
      · by_cases heq : bucketStart s.interval_seconds t = cur.bucket_start
        · have hev : (stepTick s t).2 = [.barUpdated (updateBucket cur t)] := by
            simp [stepTick, hcur, hlt, heq]
          have hst : (stepTick s t).1 =
              { s with current := some (updateBucket cur t) } := by
            simp [stepTick, hcur, hlt, heq]
          obtain ⟨ih1, ih2⟩ := ih (stepTick s t).1
          have habove := ih2 (updateBucket cur t) (by rw [hst])
          rw [hev]
          rw [show openedStarts [BarEvent.barUpdated (updateBucket cur t)] =
            ([] : List Nat) from rfl]
          rw [List.nil_append]
          refine ⟨ih1, ?_⟩
          intro b hb x hx
          injection hb with hb
          subst hb
          exact habove x hx
        · have hev : (stepTick s t).2 = [] := by
            simp [stepTick, hcur, hlt, heq]
          have hst : (stepTick s t).1 =
              { s with discarded_late_ticks := s.discarded_late_ticks + 1 } := by
            simp [stepTick, hcur, hlt, heq]
          obtain ⟨ih1, ih2⟩ := ih (stepTick s t).1
          have habove := ih2 cur (by rw [hst]; exact hcur)
          rw [hev]
          rw [show openedStarts ([] : List BarEvent) = ([] : List Nat) from rfl]
          rw [List.nil_append]
          refine ⟨ih1, ?_⟩
          intro b hb x hx
          injection hb with hb
          subst hb
          exact habove x hx

/-- C4: across any tick sequence processed by the aggregator, the
`bucket_start` values carried by successive `bar-opened` events are strictly
increasing. -/
theorem bar_opened_strictly_increasing (interval : Nat) (ticks : List Tick) :
    List.Pairwise (· < ·) (openedStarts (runAgg (initAgg interval) ticks).2) :=
  (runAgg_opened_chain ticks (initAgg interval)).1

/-- C5: a tick whose bucket start lies strictly before the current bucket's
start is dropped: the aggregator state is unchanged except that the
discarded-late-tick counter grows by exactly 1 (current bucket untouched,
closed history untouched), and no event is emitted. -/
theorem late_tick_discarded (s : AggState) (cur : Bucket) (t : Tick)
    (hcur : s.current = some cur)
    (hlate : bucketStart s.interval_seconds t < cur.bucket_start) :
    stepTick s t =
      ({ s with discarded_late_ticks := s.discarded_late_ticks + 1 }, []) := by
  simp only [stepTick, hcur]
  rw [if_neg (by omega), if_neg (by omega)]

/-- The aggregator state of the late-tick scenario of §8: bucket `A`
(`bucket_start = 0`) closed, bucket `B` (`bucket_start = 60`) current. -/
def lateScenarioState : AggState :=
  (runAgg (initAgg 60) [tickA, tickB]).1

/-- The late tick of the §8 scenario, arriving with `t = 50` after bucket
`B` has opened. -/
def tickLate : Tick := ⟨"BTC", 90, 3, Side.unknown, 50⟩

/-- C5 witness: in the §8 late-tick scenario the tick at `t = 50` is
dropped, buckets stay as they were, and the counter increments from 0
to 1. -/
theorem late_tick_discarded_witness :
    lateScenarioState.current = some (freshBucket 60 tickB) ∧
    bucketStart lateScenarioState.interval_seconds tickLate <
      (freshBucket 60 tickB).bucket_start ∧
    stepTick lateScenarioState tickLate =
      ({ lateScenarioState with
          discarded_late_ticks := lateScenarioState.discarded_late_ticks + 1 }, []) := by
  refine ⟨by decide, by decide, ?_⟩
  exact late_tick_discarded lateScenarioState (freshBucket 60 tickB) tickLate
    (by decide) (by decide)
